import Mathlib

/-!
# Verification of the OpenMS isotope-wavelet sweep-line tracker and ID merger

Shallow embedding of two OpenMS components:

* `IsotopeWaveletFF.h` — the isotope-wavelet feature finder.  The `run()`
  orchestration, the `BoxElement` data structure and the parameter defaults are
  embedded from the source header.  The sweep-line tracker internals
  (`identifyCharges`, `updateBoxStates`, `mapSeeds2Features`) live in
  `IsotopeWaveletTransform.h`, which is not part of this repository snapshot;
  those operations are modelled from the specification (sections 4.1–4.3) and
  are marked `Modelled from the spec:` below.

* `IDMergerAlgorithm.cpp` — merging of protein/peptide identification runs,
  embedded directly from the source.

Real-valued quantities (m/z, intensity, score, retention time) are modelled
as rationals; machine integers as `Nat`.
-/

namespace SweepLine

/-- Structure `BoxElement` from `IsotopeWaveletFF.h` (lines 170–177): the persisted form
of a matched candidate.  `c` is *not* the charge, it is charge − 1 (the
internal zero-based encoding, per the source comment). -/
structure BoxElement where
  mz : ℚ
  c : ℕ
  score : ℚ
  intens : ℚ
  RT : ℚ
  deriving DecidableEq, Repr

/-- A candidate pattern location produced by the scorer for one scan, per spec
§3: m/z, charge state (≥ 1), score, intensity, source scan index, retention
time. -/
structure Candidate where
  mz : ℚ
  charge : ℕ
  score : ℚ
  intens : ℚ
  scanIndex : ℕ
  RT : ℚ
  deriving DecidableEq, Repr

/-- A trace ("Box") for one fixed charge state, per spec §3: an ordered
mapping from scan index to `BoxElement`, a missed-scan counter, and a trace
identifier (used for tie-breaking).  `charge` holds the internal zero-based
encoding, matching `BoxElement.c`. -/
structure Box where
  id : ℕ
  charge : ℕ
  elems : List (ℕ × BoxElement)
  missed : ℕ
  deriving DecidableEq, Repr

/-- The Box Tracker state, per spec §4.1: disjoint open/closed collections,
the previously advanced scan index (for the ordering precondition) and a
fresh-identifier counter. -/
structure SweepState where
  openBoxes : List Box
  closedBoxes : List Box
  lastIndex : Option ℕ
  nextId : ℕ
  deriving DecidableEq, Repr

/-- Tracker failure kinds, per spec §7. -/
inductive TrackerError where
  | orderingViolation
  deriving DecidableEq, Repr

def initialSweepState : SweepState :=
  { openBoxes := [], closedBoxes := [], lastIndex := none, nextId := 0 }

/-- Modelled from the spec: stores a matched candidate as a `BoxElement`
with the charge encoded as charge − 1 (§3, "charge-state-minus-one
(internal encoding)"). -/
def mkBoxElement (cand : Candidate) : BoxElement :=
  { mz := cand.mz, c := cand.charge - 1, score := cand.score,
    intens := cand.intens, RT := cand.RT }

/-- Modelled from the spec: a fresh singleton Box seeded with one candidate,
missed-scan counter zero (§4.1 step 2). -/
def newBox (boxId scanIndex : ℕ) (cand : Candidate) : Box :=
  { id := boxId, charge := cand.charge - 1,
    elems := [(scanIndex, mkBoxElement cand)], missed := 0 }

/-- The m/z of a Box's most recent element (the matching reference, §4.1
step 1). -/
def lastMz (b : Box) : ℚ :=
  match b.elems.getLast? with
  | some p => p.2.mz
  | none => 0

def matchDist (cand : Candidate) (b : Box) : ℚ :=
  |lastMz b - cand.mz|

/-- Modelled from the spec: among the open Boxes of the candidate's charge
whose last m/z lies within the proximity tolerance, the nearest by m/z wins
and ties are broken by lowest trace identifier (§4.1 step 1).  Returns the
winning Box's identifier. -/
def bestMatch (tol : ℚ) (cand : Candidate) (open_ : List Box) : Option ℕ :=
  let qualifying := open_.filter
    (fun b => b.charge == cand.charge - 1 && decide (matchDist cand b ≤ tol))
  (qualifying.foldl
    (fun best b =>
      match best with
      | none => some b
      | some b0 =>
        if matchDist cand b < matchDist cand b0 then some b
        else if matchDist cand b = matchDist cand b0 && b.id < b0.id then some b
        else some b0)
    none).map Box.id

/-- Modelled from the spec: extend a Box with a new element at `scanIndex`
and reset its missed-scan counter to zero (§4.1 step 1). -/
def extendBox (scanIndex : ℕ) (cand : Candidate) (b : Box) : Box :=
  { b with elems := b.elems ++ [(scanIndex, mkBoxElement cand)], missed := 0 }

/-- Modelled from the spec: the matching phase of one advance step (§4.1
steps 1–2).  Processes the scan's candidates in order; each either extends
its best matching open Box or opens a new Box.  Returns the updated open
collection, the next fresh identifier, and the identifiers of the Boxes
extended or created in this scan. -/
def matchCandidates (tol : ℚ) (scanIndex : ℕ) :
    List Candidate → List Box → ℕ → List ℕ → List Box × ℕ × List ℕ
  | [], open_, nid, touched => (open_, nid, touched)
  | cand :: rest, open_, nid, touched =>
    match bestMatch tol cand open_ with
    | some bid =>
      matchCandidates tol scanIndex rest
        (open_.map (fun b => if b.id = bid then extendBox scanIndex cand b else b))
        nid (touched ++ [bid])
    | none =>
      matchCandidates tol scanIndex rest
        (open_ ++ [newBox nid scanIndex cand]) (nid + 1) (touched ++ [nid])

/-- Modelled from the spec: the penalty phase of one advance step (§4.1
step 3).  Every open Box not extended in this scan has its missed-scan
counter incremented; Boxes whose counter then exceeds the gap tolerance are
moved out (second component), the rest stay open (first component). -/
def penalize (gapTolerance : ℕ) (touched : List ℕ) :
    List Box → List Box × List Box
  | [] => ([], [])
  | b :: rest =>
    if b.id ∈ touched then
      ((penalize gapTolerance touched rest).1.cons b,
       (penalize gapTolerance touched rest).2)
    else if gapTolerance < b.missed + 1 then
      ((penalize gapTolerance touched rest).1,
       (penalize gapTolerance touched rest).2.cons { b with missed := b.missed + 1 })
    else
      ((penalize gapTolerance touched rest).1.cons { b with missed := b.missed + 1 },
       (penalize gapTolerance touched rest).2)

/-- Modelled from the spec: one sweep-line advance step (§4.1,
`updateBoxStates` together with the per-scan matching of
`identifyCharges` in `IsotopeWaveletTransform.h`, which is not part of this
snapshot).  Advancing with a scan index not strictly greater than the
previous one is a fatal ordering violation (§7).  The parameter
`voteThreshold` is carried for signature fidelity but is not consulted
during advancement (§4.1).  The in-order state transition is
`advanceCore`; the ordering precondition is enforced by `advance`. -/
def advanceCore (tol : ℚ) (s : SweepState) (scanIndex : ℕ)
    (cands : List Candidate) (gapTolerance : ℕ) : SweepState :=
  { openBoxes :=
      (penalize gapTolerance
        (matchCandidates tol scanIndex cands s.openBoxes s.nextId []).2.2
        (matchCandidates tol scanIndex cands s.openBoxes s.nextId []).1).1,
    closedBoxes := s.closedBoxes ++
      (penalize gapTolerance
        (matchCandidates tol scanIndex cands s.openBoxes s.nextId []).2.2
        (matchCandidates tol scanIndex cands s.openBoxes s.nextId []).1).2,
    lastIndex := some scanIndex,
    nextId := (matchCandidates tol scanIndex cands s.openBoxes s.nextId []).2.1 }

def advance (tol : ℚ) (s : SweepState) (scanIndex : ℕ) (cands : List Candidate)
    (gapTolerance voteThreshold : ℕ) : Except TrackerError SweepState :=
  match s.lastIndex with
  | some j =>
    if scanIndex ≤ j then Except.error TrackerError.orderingViolation
    else Except.ok (advanceCore tol s scanIndex cands gapTolerance)
  | none => Except.ok (advanceCore tol s scanIndex cands gapTolerance)

/-- Modelled from the spec: the terminal flush (§4.1), realised in the source
`run()` by the trailing `updateBoxStates (INT_MAX, ...)` call
(`IsotopeWaveletFF.h` lines 145–147).  Forces closure of every remaining
open Box regardless of its missed-scan counter; the thresholds are accepted
but not consulted. -/
def flush (s : SweepState) (gapTolerance voteThreshold : ℕ) : SweepState :=
  { openBoxes := [], closedBoxes := s.closedBoxes ++ s.openBoxes,
    lastIndex := s.lastIndex, nextId := s.nextId }

/-- A reported feature, per spec §3: m/z centroid, charge state, retention
time span, aggregate intensity and score, contributing-scan count. -/
structure Feature where
  mz : ℚ
  charge : ℕ
  rtMin : ℚ
  rtMax : ℚ
  intens : ℚ
  score : ℚ
  scanCount : ℕ
  deriving DecidableEq, Repr

def sumScores (b : Box) : ℚ :=
  (b.elems.map (fun p => p.2.score)).sum

def sumIntens (b : Box) : ℚ :=
  (b.elems.map (fun p => p.2.intens)).sum

def rtValues (b : Box) : List ℚ :=
  b.elems.map (fun p => p.2.RT)

/-- Modelled from the spec: one Feature from one closed Box (§4.2).  The
charge state is the Box's stored charge plus one, undoing the internal
zero-based encoding; the retention-time span is the min/max among the Box
Elements; the aggregation rule (plain mean m/z, summed intensity) is a fixed
documented choice, as §4.2 and §9 require. -/
def boxToFeature (b : Box) : Feature :=
  { mz := (b.elems.map (fun p => p.2.mz)).sum / b.elems.length,
    charge := b.charge + 1,
    rtMin := (rtValues b).foldr min ((rtValues b).headD 0),
    rtMax := (rtValues b).foldr max ((rtValues b).headD 0),
    intens := sumIntens b,
    score := sumScores b,
    scanCount := b.elems.length }

/-- Modelled from the spec: the effective vote threshold of the Feature
Synthesizer (§4.2): a cutoff exceeding the total scan count is treated as
zero. -/
def effectiveThreshold (voteThreshold totalScanCount : ℕ) : ℕ :=
  if totalScanCount < voteThreshold then 0 else voteThreshold

/-- Modelled from the spec: the Feature Synthesizer (§4.2,
`mapSeeds2Features` in `IsotopeWaveletTransform.h`, not part of this
snapshot).  Every closed Box whose element count reaches the effective
threshold is promoted to one Feature; the rest are discarded without
error. -/
def mapSeeds2Features (closedBoxes : List Box)
    (totalScanCount voteThreshold : ℕ) : List Feature :=
  (closedBoxes.filter
    (fun b => effectiveThreshold voteThreshold totalScanCount ≤ b.elems.length)).map
    boxToFeature

/-- The per-scan tracking loop of `run()` (`IsotopeWaveletFF.h` lines
111–141): advance once per scan index in order, with the gap tolerance
`RT_interleave_` and the corrected cutoff computed at lines 105–108. -/
def trackAll (tol : ℚ) (cands : ℕ → List Candidate)
    (gapTolerance voteThreshold n : ℕ) : Except TrackerError SweepState :=
  (List.range n).foldlM
    (fun s i => advance tol s i (cands i) gapTolerance voteThreshold)
    initialSweepState

/-- The `run()` orchestration from `IsotopeWaveletFF.h` (lines 93–154),
with scoring abstracted into the per-scan candidate lists `cands`:
the cutoff is corrected to zero when it exceeds the scan count
(lines 105–108), the corrected value drives `updateBoxStates` in the loop
and in the terminal flush (lines 133 and 147), and the synthesis call
receives the raw `RT_votes_cutoff_` (line 153). -/
def runFF (tol : ℚ) (cands : ℕ → List Candidate)
    (n gapTolerance rtVotesCutoff : ℕ) : Except TrackerError (List Feature) :=
  let cutoff := if n < rtVotesCutoff then 0 else rtVotesCutoff
  (trackAll tol cands gapTolerance cutoff n).map
    (fun s => mapSeeds2Features (flush s gapTolerance cutoff).closedBoxes
      n rtVotesCutoff)

/-- Modelled from the spec: the per-scan adaptive score threshold of
candidate filtering (§4.3, applied inside `identifyCharges` in
`IsotopeWaveletTransform.h`, not part of this snapshot): the final threshold
is `mean + k * stddev`, except that a configured `k = -1` fixes it to zero.
This matches the `intensity_threshold` parameter documentation embedded in
`IsotopeWaveletFF.h` lines 67–72. -/
def scanThreshold (k mean sd : ℚ) : ℚ :=
  if k = -1 then 0 else mean + k * sd

/-- A candidate score passes the per-scan filter when it reaches the
threshold. -/
def passesFilter (k mean sd score : ℚ) : Bool :=
  decide (scanThreshold k mean sd ≤ score)

/-- A peak of a raw scan: (m/z, intensity). -/
structure Peak where
  mz : ℚ
  intensity : ℚ
  deriving DecidableEq, Repr

/-- A raw scan: retention time and ordered peak list (spec §3). -/
structure Scan where
  rt : ℚ
  peaks : List Peak
  deriving DecidableEq, Repr

/-- The maximum m/z over the entire scan sequence:
`Base::map_->getMax()[1]` at `IsotopeWaveletFF.h` line 95 (zero for an
empty map). -/
def maxMzOf (scans : List Scan) : ℚ :=
  ((scans.map (fun s => s.peaks.map Peak.mz)).flatten).foldr max 0

/-- The observable steps of `run()` (`IsotopeWaveletFF.h` lines 93–154),
in program order. -/
inductive RunEvent where
  /-- The one-time scorer setup: `setMaxCharge`,
  `computeIsotopeDistributionSize(max_mz)` and
  `preComputeExpensiveFunctions(max_mz)` at lines 96–98. -/
  | scorerSetup (maxMz : ℚ)
  /-- Call `getTransforms` for scan `i` (line 119): the scan is scored. -/
  | scoreScan (i : ℕ)
  /-- Call `identifyCharges` for scan `i` (line 126). -/
  | chargeStep (i : ℕ)
  /-- Call `updateBoxStates` for scan `i` (line 133). -/
  | boxStep (i : ℕ)
  /-- The terminal `updateBoxStates (INT_MAX, ...)` flush (line 147). -/
  | finalFlush
  /-- The `mapSeeds2Features` call (line 153). -/
  | synthStep
  deriving DecidableEq, Repr

def isSetupEvent : RunEvent → Bool
  | RunEvent.scorerSetup _ => true
  | _ => false

/-- The event trace of `run()`: the scorer setup sized from the maximum m/z
of the whole map, then per scan (in index order) scoring, charge
identification and box update, then the terminal flush and the synthesis
call — exactly the statement order of `IsotopeWaveletFF.h` lines 95–153. -/
def runTrace (scans : List Scan) : List RunEvent :=
  [RunEvent.scorerSetup (maxMzOf scans)]
  ++ (List.range scans.length).flatMap
      (fun i => [RunEvent.scoreScan i, RunEvent.chargeStep i, RunEvent.boxStep i])
  ++ [RunEvent.finalFlush, RunEvent.synthStep]

end SweepLine

namespace IDMerger

/-- The compared subset of `ProteinIdentification::SearchParameters`
(see `checkOldRunConsistency_`, `IDMergerAlgorithm.cpp` lines 239–274). -/
structure SearchParameters where
  db : String
  db_version : String
  taxonomy : String
  charges : String
  fixed_modifications : List String
  variable_modifications : List String
  precursor_mass_tolerance : ℚ
  precursor_mass_tolerance_ppm : Bool
  fragment_mass_tolerance : ℚ
  fragment_mass_tolerance_ppm : Bool
  digestion_enzyme : String
  deriving DecidableEq, Repr

/-- A protein hit: the accession plus its payload. -/
structure ProteinHit where
  accession : String
  score : ℚ
  sequence : String
  deriving DecidableEq, Repr

/-- A protein identification run. -/
structure ProteinIdentification where
  identifier : String
  searchEngine : String
  searchEngineVersion : String
  searchParameters : SearchParameters
  hits : List ProteinHit
  primaryMSRunPath : List String
  deriving DecidableEq, Repr

/-- A peptide hit; `proteinAccessions` is the source of
`extractProteinAccessionsSet` (the accessions of its peptide evidences). -/
structure PeptideHit where
  proteinAccessions : List String
  deriving DecidableEq, Repr

/-- A peptide identification; `mapIndex` is the optional `map_index`
meta value. -/
structure PeptideIdentification where
  identifier : String
  mz : ℚ
  rt : ℚ
  mapIndex : Option ℕ
  hits : List PeptideHit
  deriving DecidableEq, Repr

/-- Method `PeptideHit::extractProteinAccessionsSet` returns a `std::set<String>`;
the element set is modelled by deduplication (the sorted iteration order of
the C++ set is immaterial to the stated claims). -/
def extractProteinAccessionsSet (ph : PeptideHit) : List String :=
  ph.proteinAccessions.dedup

/-- The accumulated state of an `IDMergerAlgorithm` instance:
`protResult`, `pepResult`, `fileOriginToIdx` (insertion-ordered association
list, value = map size at insertion), `proteinsCollected` (a set, modelled
as a duplicate-free membership list) and `filled`
(`IDMergerAlgorithm.h` members used throughout `IDMergerAlgorithm.cpp`). -/
structure MergerState where
  protResult : ProteinIdentification
  pepResult : List PeptideIdentification
  fileOriginToIdx : List (String × ℕ)
  proteinsCollected : List String
  filled : Bool
  deriving DecidableEq, Repr

/-- The exceptions thrown by `IDMergerAlgorithm.cpp`, plus the undefined
behaviours made explicit: `findHit` past-the-end dereference (line 214) and
`std::vector::at` out of range (line 203). -/
inductive MergeError where
  | missingInformation
  | invalidData
  | findHitFailed
  | outOfRange
  deriving DecidableEq, Repr

def emptySearchParameters : SearchParameters :=
  { db := "", db_version := "", taxonomy := "", charges := "",
    fixed_modifications := [], variable_modifications := [],
    precursor_mass_tolerance := 0, precursor_mass_tolerance_ppm := false,
    fragment_mass_tolerance := 0, fragment_mass_tolerance_ppm := false,
    digestion_enzyme := "" }

def emptyProteinIdentification : ProteinIdentification :=
  { identifier := "", searchEngine := "", searchEngineVersion := "",
    searchParameters := emptySearchParameters, hits := [],
    primaryMSRunPath := [] }

/-- The state right after the constructor (lines 42–54): empty results, the
fresh identifier (time-dependent, hence a parameter here) already set on
`protResult`. -/
def initialMergerState (ident : String) : MergerState :=
  { protResult := { emptyProteinIdentification with identifier := ident },
    pepResult := [], fileOriginToIdx := [], proteinsCollected := [],
    filled := false }

/-- Search engine / version comparison of `checkOldRunConsistency_`
(lines 247). -/
def engineMismatch (ref idRun : ProteinIdentification) : Bool :=
  idRun.searchEngine != ref.searchEngine
    || idRun.searchEngineVersion != ref.searchEngineVersion

/-- The non-modification search-parameter comparison of
`checkOldRunConsistency_` (lines 255–263). -/
def paramsMismatch (ref idRun : ProteinIdentification) : Bool :=
  let p := ref.searchParameters
  let sp := idRun.searchParameters
  p.precursor_mass_tolerance != sp.precursor_mass_tolerance
    || p.precursor_mass_tolerance_ppm != sp.precursor_mass_tolerance_ppm
    || p.db != sp.db
    || p.db_version != sp.db_version
    || p.fragment_mass_tolerance != sp.fragment_mass_tolerance
    || p.fragment_mass_tolerance_ppm != sp.fragment_mass_tolerance_ppm
    || p.charges != sp.charges
    || p.digestion_enzyme != sp.digestion_enzyme
    || p.taxonomy != sp.taxonomy

/-- The modification-set comparison of `checkOldRunConsistency_`
(lines 240–241, 271–274): both sides are compared as `std::set<String>`,
i.e. as element sets. -/
def modsMismatch (ref idRun : ProteinIdentification) : Bool :=
  decide (ref.searchParameters.fixed_modifications.toFinset
      ≠ idRun.searchParameters.fixed_modifications.toFinset)
    || decide (ref.searchParameters.variable_modifications.toFinset
      ≠ idRun.searchParameters.variable_modifications.toFinset)

/-- The loop body of `checkOldRunConsistency_` (lines 244–293): each run
sets `ok` to true, a mismatch resets it and breaks, except a
modification-set mismatch in a `labeled_MS1` experiment which only warns.
Returns the value of `ok` after the loop; `true` for the empty suffix. -/
def checkLoop (ref : ProteinIdentification) (experimentType : String) :
    List ProteinIdentification → Bool
  | [] => true
  | idRun :: rest =>
    if engineMismatch ref idRun then false
    else if paramsMismatch ref idRun then false
    else if modsMismatch ref idRun && experimentType != "labeled_MS1" then false
    else checkLoop ref experimentType rest

/-- Embeds `IDMergerAlgorithm::checkOldRunConsistency_` (lines 235–304): `ok`
starts false, so an empty run list also throws; when `ok` is false after
the loop, an `InvalidData` exception aborts the merge. -/
def checkOldRunConsistency (protRuns : List ProteinIdentification)
    (ref : ProteinIdentification) (experimentType : String) :
    Except MergeError Bool :=
  let ok := if protRuns.isEmpty then false else checkLoop ref experimentType protRuns
  if ok then Except.ok true else Except.error MergeError.invalidData

/-- Embeds `IDMergerAlgorithm::copySearchParams_` (lines 223–228). -/
def copySearchParams (src dst : ProteinIdentification) : ProteinIdentification :=
  { dst with searchEngine := src.searchEngine,
             searchEngineVersion := src.searchEngineVersion,
             searchParameters := src.searchParameters }

/-- Embeds `fileOriginToIdx.emplace(f, fileOriginToIdx.size())` (line 153):
no-op when the key is present, otherwise the key is added with the current
map size as value. -/
def emplaceOrigin (m : List (String × ℕ)) (f : String) : List (String × ℕ) :=
  if m.any (fun p => p.1 == f) then m else m ++ [(f, m.length)]

/-- The origin-collection loop of `movePepIDsAndRefProteinsToResult_`
(lines 136–156): per protein run, read its primary-MS-run path, fail when
it is empty and origin annotation was requested, and register every file in
`fileOriginToIdx`.  Returns the per-run origin lists and the updated
map. -/
def collectOrigins (annotateOrigin : Bool) :
    List ProteinIdentification → List (String × ℕ) →
    Except MergeError (List (List String) × List (String × ℕ))
  | [], m => Except.ok ([], m)
  | r :: rest, m =>
    let toFill := r.primaryMSRunPath
    if toFill.isEmpty && annotateOrigin then
      Except.error MergeError.missingInformation
    else
      (collectOrigins annotateOrigin rest (toFill.foldl emplaceOrigin m)).map
        (fun p => (toFill :: p.1, p.2))

/-- The linear search of lines 163–171: index of the first old protein run
whose identifier equals the peptide identification's identifier. -/
def findRunIdx (oldProtRuns : List ProteinIdentification) (runID : String) :
    Option ℕ :=
  oldProtRuns.findIdx? (fun r => r.identifier == runID)

/-- Embeds `ProteinIdentification::findHit` at line 214: first hit with the given
accession. -/
def findHit (run : ProteinIdentification) (acc : String) : Option ProteinHit :=
  run.hits.find? (fun h => h.accession == acc)

/-- The accession loop at lines 209–216: each accession is inserted into
`proteinsCollected`; only a newly inserted accession moves the referenced
protein hit into the result.  A `findHit` miss dereferences the
past-the-end iterator in the source; it is made an explicit error here. -/
def collectFromAccs (run : ProteinIdentification) :
    List String → List String → List ProteinHit →
    Except MergeError (List String × List ProteinHit)
  | [], collected, hits => Except.ok (collected, hits)
  | acc :: rest, collected, hits =>
    if acc ∈ collected then collectFromAccs run rest collected hits
    else
      match findHit run acc with
      | some h => collectFromAccs run rest (collected ++ [acc]) (hits ++ [h])
      | none => Except.error MergeError.findHitFailed

/-- The peptide-hit loop at lines 206–217: per hit, process its protein
accession set. -/
def collectFromHits (run : ProteinIdentification) :
    List PeptideHit → List String → List ProteinHit →
    Except MergeError (List String × List ProteinHit)
  | [], collected, hits => Except.ok (collected, hits)
  | ph :: rest, collected, hits =>
    match collectFromAccs run (extractProteinAccessionsSet ph) collected hits with
    | Except.ok p => collectFromHits run rest p.1 p.2
    | Except.error e => Except.error e

/-- The `map_index` annotation of lines 183–204 for one peptide
identification whose old run index is `idx`: without an existing
annotation, more than one candidate origin file is an error; the chosen
origin file is looked up (`.at` out of range is an explicit error; the key
is always present in `fileOriginToIdx` because every origin file was
registered by `collectOrigins`, so the `operator[]` default never
materialises). -/
def annotateMapIndex (annotateOrigin : Bool) (originFiles : List (List String))
    (m : List (String × ℕ)) (idx : ℕ) (pid : PeptideIdentification) :
    Except MergeError (Option ℕ) :=
  if annotateOrigin || pid.mapIndex.isSome then
    let files := originFiles.getD idx []
    if pid.mapIndex.isNone && decide (1 < files.length) then
      Except.error MergeError.missingInformation
    else
      match files.get? (pid.mapIndex.getD 0) with
      | none => Except.error MergeError.outOfRange
      | some f =>
        Except.ok (some (((m.find? (fun p => p.1 == f)).map Prod.snd).getD 0))
  else
    Except.ok pid.mapIndex

/-- The peptide loop of `movePepIDsAndRefProteinsToResult_`
(lines 158–220): per peptide identification, locate its old run (a miss
throws), annotate `map_index`, rewrite its identifier to the merged run's,
move referenced protein hits, and append it to the peptide result. -/
def movePepIDsCore (annotateOrigin : Bool) (originFiles : List (List String))
    (oldProtRuns : List ProteinIdentification) (resultIdent : String)
    (m : List (String × ℕ)) :
    List PeptideIdentification → List String → List ProteinHit →
    List PeptideIdentification →
    Except MergeError (List String × List ProteinHit × List PeptideIdentification)
  | [], collected, hits, peps => Except.ok (collected, hits, peps)
  | pid :: rest, collected, hits, peps =>
    match findRunIdx oldProtRuns pid.identifier with
    | none => Except.error MergeError.missingInformation
    | some idx =>
      match annotateMapIndex annotateOrigin originFiles m idx pid with
      | Except.error e => Except.error e
      | Except.ok newMapIdx =>
        let run := oldProtRuns.getD idx emptyProteinIdentification
        match collectFromHits run pid.hits collected hits with
        | Except.error e => Except.error e
        | Except.ok p =>
          movePepIDsCore annotateOrigin originFiles oldProtRuns resultIdent m
            rest p.1 p.2
            (peps ++ [{ pid with identifier := resultIdent, mapIndex := newMapIdx }])

/-- Embeds `IDMergerAlgorithm::movePepIDsAndRefProteinsToResult_`
(lines 130–221). -/
def movePepIDsAndRefProteinsToResult (annotateOrigin : Bool) (s : MergerState)
    (pepIDs : List PeptideIdentification)
    (oldProtRuns : List ProteinIdentification) : Except MergeError MergerState :=
  match collectOrigins annotateOrigin oldProtRuns s.fileOriginToIdx with
  | Except.error e => Except.error e
  | Except.ok origins =>
    match movePepIDsCore annotateOrigin origins.1 oldProtRuns
        s.protResult.identifier origins.2 pepIDs s.proteinsCollected
        s.protResult.hits s.pepResult with
    | Except.error e => Except.error e
    | Except.ok r =>
      Except.ok
        { s with fileOriginToIdx := origins.2,
                 proteinsCollected := r.1,
                 protResult := { s.protResult with hits := r.2.1 },
                 pepResult := r.2.2 }

/-- The state after the first-fill branch of `insertRun` (lines 73–83):
search parameters copied from the first arriving run, `filled` set. -/
def filledState (s : MergerState) (prots : List ProteinIdentification) :
    MergerState :=
  { s with
      protResult :=
        copySearchParams (prots.headD emptyProteinIdentification) s.protResult,
      filled := true }

/-- Embeds `IDMergerAlgorithm::insertRun` (lines 57–91): empty protein or peptide
lists return immediately; the first non-empty insertion copies the search
parameters (after a consistency check when several runs arrive at once),
later insertions are checked against the accumulated result; then peptides
and referenced proteins are moved into the result. -/
def insertRun (annotateOrigin : Bool) (s : MergerState)
    (prots : List ProteinIdentification) (peps : List PeptideIdentification) :
    Except MergeError MergerState :=
  if prots.isEmpty then Except.ok s
  else if peps.isEmpty then Except.ok s
  else if !s.filled then
    match (if 1 < prots.length then
        checkOldRunConsistency prots
          (prots.headD emptyProteinIdentification) "label-free"
      else Except.ok true) with
    | Except.error e => Except.error e
    | Except.ok _ =>
      movePepIDsAndRefProteinsToResult annotateOrigin
        (filledState s prots) peps prots
  else
    match checkOldRunConsistency prots s.protResult "label-free" with
    | Except.error e => Except.error e
    | Except.ok _ => movePepIDsAndRefProteinsToResult annotateOrigin s peps prots

/-- A whole usage session: a sequence of `insertRun` calls on one instance,
starting from the fresh constructor state. -/
def applyRuns (annotateOrigin : Bool) (ident : String)
    (runs : List (List ProteinIdentification × List PeptideIdentification)) :
    Except MergeError MergerState :=
  runs.foldlM (fun s r => insertRun annotateOrigin s r.1 r.2)
    (initialMergerState ident)

end IDMerger

namespace SweepLine

/-- Concrete sample data used to instantiate proved properties. -/
def sampleElem : BoxElement :=
  { mz := 500, c := 0, score := 3, intens := 10, RT := 1 }

def sampleBox : Box :=
  { id := 0, charge := 0, elems := [(0, sampleElem)], missed := 0 }

def sampleOpenState : SweepState :=
  { openBoxes := [sampleBox], closedBoxes := [], lastIndex := some 0, nextId := 1 }

def sampleCand : Candidate :=
  { mz := 500, charge := 1, score := 3, intens := 10, scanIndex := 0, RT := 1 }

def orderedState : SweepState :=
  { openBoxes := [], closedBoxes := [], lastIndex := some 3, nextId := 0 }

def sampleCands : ℕ → List Candidate :=
  fun i => if i = 0 then [sampleCand] else []

def sampleScan : Scan :=
  { rt := 1, peaks := [{ mz := 500, intensity := 10 }] }

end SweepLine

namespace IDMerger

/-- The accession bookkeeping invariant of the merged result: every merged
protein hit's accession is recorded in `proteinsCollected`, and no
accession occurs twice in the merged hit list. -/
def HitsInv (collected : List String) (hits : List ProteinHit) : Prop :=
  (∀ h ∈ hits, h.accession ∈ collected) ∧
  (hits.map ProteinHit.accession).Nodup

/-- Concrete sample inputs used to instantiate proved properties. -/
def sampleProt : ProteinIdentification :=
  { identifier := "r", searchEngine := "E", searchEngineVersion := "1",
    searchParameters := emptySearchParameters,
    hits := [{ accession := "A", score := 0, sequence := "" }],
    primaryMSRunPath := ["f"] }

def samplePep : PeptideIdentification :=
  { identifier := "r", mz := 1, rt := 2, mapIndex := none,
    hits := [{ proteinAccessions := ["A", "A"] }] }

/-- The merger state reached by inserting (`sampleProt`, `samplePep`)
twice into a fresh instance. -/
def sampleMergedState : MergerState :=
  { protResult :=
      { identifier := "merged", searchEngine := "E", searchEngineVersion := "1",
        searchParameters := emptySearchParameters,
        hits := [{ accession := "A", score := 0, sequence := "" }],
        primaryMSRunPath := [] },
    pepResult :=
      [{ samplePep with identifier := "merged", mapIndex := some 0 },
       { samplePep with identifier := "merged", mapIndex := some 0 }],
    fileOriginToIdx := [("f", 0)],
    proteinsCollected := ["A"],
    filled := true }

end IDMerger

namespace SweepLine

theorem matchCandidates_touched_mono (tol : ℚ) (i : ℕ) (cands : List Candidate) :
    ∀ (open_ : List Box) (nid : ℕ) (acc : List ℕ),
    acc ⊆ (matchCandidates tol i cands open_ nid acc).2.2 := by
  induction cands with
  | nil =>
    intro open_ nid acc
    simp [matchCandidates]
  | cons cand rest ih =>
    intro open_ nid acc
    simp only [matchCandidates]
    rcases h : bestMatch tol cand open_ with _ | bid
    · exact fun x hx => ih _ _ _ (List.mem_append_left _ hx)
    · exact fun x hx => ih _ _ _ (List.mem_append_left _ hx)

theorem matchCandidates_mem_untouched (tol : ℚ) (i : ℕ) (cands : List Candidate) :
    ∀ (open_ : List Box) (nid : ℕ) (acc : List ℕ) (b : Box),
    b ∈ open_ →
    b.id ∉ (matchCandidates tol i cands open_ nid acc).2.2 →
    b ∈ (matchCandidates tol i cands open_ nid acc).1 := by
  induction cands with
  | nil =>
    intro open_ nid acc b hb _
    simpa [matchCandidates] using hb
  | cons cand rest ih =>
    intro open_ nid acc b hb hnt
    simp only [matchCandidates] at hnt ⊢
    rcases h : bestMatch tol cand open_ with _ | bid
    · rw [h] at hnt
      exact ih _ _ _ b (List.mem_append_left _ hb) hnt
    · rw [h] at hnt
      have hbid : bid ∈ (matchCandidates tol i rest
          (open_.map (fun b => if b.id = bid then extendBox i cand b else b))
          nid (acc ++ [bid])).2.2 :=
        matchCandidates_touched_mono tol i rest _ nid (acc ++ [bid])
          (List.mem_append_right _ (List.mem_singleton_self bid))
      have hne : b.id ≠ bid := fun he => hnt (he ▸ hbid)
      have hfix : (if b.id = bid then extendBox i cand b else b) = b := if_neg hne
      exact ih _ _ _ b (hfix ▸ List.mem_map_of_mem _ hb) hnt

theorem penalize_spec (g : ℕ) (touched : List ℕ) (open_ : List Box) (b : Box)
    (hb : b ∈ open_) (hnt : b.id ∉ touched) :
    (b.missed + 1 ≤ g →
      { b with missed := b.missed + 1 } ∈ (penalize g touched open_).1) ∧
    (g < b.missed + 1 →
      { b with missed := b.missed + 1 } ∈ (penalize g touched open_).2) := by
  induction open_ with
  | nil => cases hb
  | cons x rest ih =>
    rcases List.mem_cons.mp hb with rfl | hb'
    · simp only [penalize, if_neg hnt]
      constructor
      · intro hle
        rw [if_neg (by omega : ¬ g < b.missed + 1)]
        exact List.mem_cons_self _ _
      · intro hlt
        rw [if_pos hlt]
        exact List.mem_cons_self _ _
    · have hrec := ih hb'
      simp only [penalize]
      by_cases hx : x.id ∈ touched
      · rw [if_pos hx]
        exact ⟨fun h => List.mem_cons_of_mem _ (hrec.1 h), fun h => hrec.2 h⟩
      · rw [if_neg hx]
        by_cases hg : g < x.missed + 1
        · rw [if_pos hg]
          exact ⟨fun h => hrec.1 h, fun h => List.mem_cons_of_mem _ (hrec.2 h)⟩
        · rw [if_neg hg]
          exact ⟨fun h => List.mem_cons_of_mem _ (hrec.1 h), fun h => hrec.2 h⟩

theorem advance_ok_eq (tol : ℚ) (s : SweepState) (i : ℕ)
    (cands : List Candidate) (g v : ℕ) (s' : SweepState)
    (hadv : advance tol s i cands g v = Except.ok s') :
    s' = advanceCore tol s i cands g := by
  rcases hl : s.lastIndex with _ | j
  · simp only [advance, hl] at hadv
    exact (Except.ok.inj hadv).symm
  · simp only [advance, hl] at hadv
    split at hadv
    · cases hadv
    · exact (Except.ok.inj hadv).symm

/-- C2: for every open Box and every non-negative gap tolerance, an advance
step that does not extend the Box increments its missed-scan counter by
one, and the Box is closed (moved to the closed collection) exactly when
that counter exceeds the gap tolerance: a Box survives exactly
`gapTolerance` consecutive missed scans and closes on the
`gapTolerance + 1`-th consecutive miss. -/
theorem advance_gap_boundary (tol : ℚ) (s : SweepState) (i : ℕ)
    (cands : List Candidate) (g v : ℕ) (s' : SweepState) (b : Box)
    (hadv : advance tol s i cands g v = Except.ok s')
    (hb : b ∈ s.openBoxes)
    (hnt : b.id ∉ (matchCandidates tol i cands s.openBoxes s.nextId []).2.2) :
    (b.missed + 1 ≤ g → { b with missed := b.missed + 1 } ∈ s'.openBoxes) ∧
    (g < b.missed + 1 → { b with missed := b.missed + 1 } ∈ s'.closedBoxes) := by
  rcases advance_ok_eq tol s i cands g v s' hadv with rfl
  have hmem : b ∈ (matchCandidates tol i cands s.openBoxes s.nextId []).1 :=
    matchCandidates_mem_untouched tol i cands s.openBoxes s.nextId [] b hb hnt
  have hpen := penalize_spec g
    (matchCandidates tol i cands s.openBoxes s.nextId []).2.2
    (matchCandidates tol i cands s.openBoxes s.nextId []).1 b hmem hnt
  exact ⟨fun h => hpen.1 h,
    fun h => List.mem_append_right _ (hpen.2 h)⟩

/-- C2 witness: a single open Box with missed counter 0, an advance with no
candidates and gap tolerance 0: the incremented counter 1 exceeds the
tolerance and the Box moves to the closed collection. -/
theorem advance_gap_boundary_witness :
    { sampleBox with missed := 1 } ∈
      (advanceCore 0 sampleOpenState 1 [] 0).closedBoxes :=
  (advance_gap_boundary 0 sampleOpenState 1 [] 0 5
    (advanceCore 0 sampleOpenState 1 [] 0) sampleBox rfl
    (List.mem_singleton_self _) (by simp [matchCandidates])).2
    (by omega)

/-- C3: the terminal flush closes every remaining open Box regardless of its
missed-scan counter, and flush is idempotent: a second flush operates on an
empty open set and is a no-op, yielding the same closed-Box set. -/
theorem flush_total_and_idempotent (s : SweepState) (g v g' v' : ℕ) :
    (flush s g v).openBoxes = [] ∧
    (flush s g v).closedBoxes = s.closedBoxes ++ s.openBoxes ∧
    flush (flush s g v) g' v' = flush s g v := by
  refine ⟨rfl, rfl, ?_⟩
  simp [flush]

/-- C4: advancing with a scan index not strictly greater than the previously
advanced index is rejected as a fatal ordering violation, for any such
input. -/
theorem advance_ordering_violation (tol : ℚ) (s : SweepState) (i j : ℕ)
    (cands : List Candidate) (g v : ℕ)
    (hl : s.lastIndex = some j) (hij : i ≤ j) :
    advance tol s i cands g v = Except.error TrackerError.orderingViolation := by
  unfold advance
  rw [hl]
  exact if_pos hij

/-- C4 witness: re-advancing with the same index 3 after index 3 fails. -/
theorem advance_ordering_violation_witness :
    advance 0 orderedState 3 [] 2 5
      = Except.error TrackerError.orderingViolation :=
  advance_ordering_violation 0 orderedState 3 3 [] 2 5 rfl (by omega)

end SweepLine

namespace SweepLine

/-- C1: for every run whose configured vote cutoff exceeds the total number
of scans, feature synthesis treats the effective threshold as zero, so
every closed Box with at least one Box Element is promoted to a Feature. -/
theorem runFF_degenerate_cutoff (tol : ℚ) (cands : ℕ → List Candidate)
    (n gapTol cutoff : ℕ) (s : SweepState) (b : Box)
    (hdeg : n < cutoff)
    (htrack : trackAll tol cands gapTol 0 n = Except.ok s)
    (hb : b ∈ (flush s gapTol 0).closedBoxes)
    (hne : 1 ≤ b.elems.length) :
    runFF tol cands n gapTol cutoff
        = Except.ok (mapSeeds2Features (flush s gapTol 0).closedBoxes n cutoff) ∧
      boxToFeature b ∈ mapSeeds2Features (flush s gapTol 0).closedBoxes n cutoff := by
  constructor
  · simp only [runFF, if_pos hdeg, htrack, Except.map]
  · unfold mapSeeds2Features
    refine List.mem_map_of_mem _ (List.mem_filter.mpr ⟨hb, ?_⟩)
    simp [effectiveThreshold, if_pos hdeg]

/-- C1 witness: one scan, cutoff 5 > 1 scan, a single trace flushed with one
element is promoted. -/
theorem runFF_degenerate_cutoff_witness :
    runFF 0 sampleCands 1 0 5
        = Except.ok (mapSeeds2Features (flush sampleOpenState 0 0).closedBoxes 1 5) ∧
      boxToFeature sampleBox ∈
        mapSeeds2Features (flush sampleOpenState 0 0).closedBoxes 1 5 :=
  runFF_degenerate_cutoff 0 sampleCands 1 0 5 sampleOpenState sampleBox
    (by omega) (by rfl) (by simp [flush, sampleOpenState]) (by decide)

/-- C5: when the configured intensity-threshold parameter k equals −1, the
per-scan adaptive filter threshold `mean + k·stddev` is replaced by zero,
so every candidate with non-negative score passes filtering regardless of
the scan's score distribution. -/
theorem filter_disabled_threshold (mean sd score : ℚ) (h : 0 ≤ score) :
    scanThreshold (-1) mean sd = 0 ∧ passesFilter (-1) mean sd score = true := by
  refine ⟨by simp [scanThreshold], ?_⟩
  simp [passesFilter, scanThreshold, h]

/-- C5 witness: with k = −1, mean 100 and stddev 7, the candidate score 2
passes even though the adaptive formula would demand 100 + (−1)·7 = 93. -/
theorem filter_disabled_threshold_witness :
    scanThreshold (-1) 100 7 = 0 ∧ passesFilter (-1) 100 7 2 = true :=
  filter_disabled_threshold 100 7 2 (by norm_num)

/-- C6: every Box Element stores the charge state in a zero-based internal
encoding (charge minus one), and every Feature emitted at synthesis reports
charge equal to its Box's stored charge plus one, undoing that encoding. -/
theorem charge_encoding_roundtrip (cand : Candidate) (closed : List Box)
    (n v : ℕ) (f : Feature) (hc : 1 ≤ cand.charge)
    (hf : f ∈ mapSeeds2Features closed n v) :
    (mkBoxElement cand).c + 1 = cand.charge ∧
    ∃ b ∈ closed, f = boxToFeature b ∧ f.charge = b.charge + 1 := by
  constructor
  · simpa [mkBoxElement] using Nat.sub_add_cancel hc
  · unfold mapSeeds2Features at hf
    rcases List.mem_map.mp hf with ⟨b, hbmem, rfl⟩
    exact ⟨b, (List.mem_filter.mp hbmem).1, rfl, rfl⟩

/-- C6 witness: a charge-1 candidate is stored as 0 and reported back as 1
on the synthesized feature. -/
theorem charge_encoding_roundtrip_witness :
    (mkBoxElement sampleCand).c + 1 = sampleCand.charge ∧
    ∃ b ∈ [sampleBox], boxToFeature sampleBox = boxToFeature b ∧
      (boxToFeature sampleBox).charge = b.charge + 1 :=
  charge_encoding_roundtrip sampleCand [sampleBox] 1 0
    (boxToFeature sampleBox) (by decide)
    (by simp [mapSeeds2Features, effectiveThreshold, sampleBox])

/-- C7: in every run, the one-time global setup of the Pattern Scorer —
sized from the maximum m/z taken over the entire scan sequence — is the
first event of the run trace, and no setup or scoring-table update event
occurs anywhere after it; in particular the setup completes before the
first scan is scored. -/
theorem run_setup_before_scoring (scans : List Scan) (e : RunEvent)
    (he : e ∈ (runTrace scans).tail) :
    (runTrace scans).head? = some (RunEvent.scorerSetup (maxMzOf scans)) ∧
    isSetupEvent e = false := by
  refine ⟨rfl, ?_⟩
  have he' : e ∈ (List.range scans.length).flatMap
      (fun i => [RunEvent.scoreScan i, RunEvent.chargeStep i, RunEvent.boxStep i])
      ++ [RunEvent.finalFlush, RunEvent.synthStep] := by
    simpa [runTrace] using he
  rcases List.mem_append.mp he' with h | h
  · rcases List.mem_flatMap.mp h with ⟨i, -, hi⟩
    simp only [List.mem_cons, List.mem_singleton, List.not_mem_nil, or_false] at hi
    rcases hi with rfl | rfl | rfl <;> rfl
  · simp only [List.mem_cons, List.mem_singleton, List.not_mem_nil, or_false] at h
    rcases h with rfl | rfl <;> rfl

/-- C7 witness: a one-scan run; the event scoring scan 0 sits in the tail of
the trace, after the setup that heads it, and is not a setup event. -/
theorem run_setup_before_scoring_witness :
    (runTrace [sampleScan]).head?
        = some (RunEvent.scorerSetup (maxMzOf [sampleScan])) ∧
    isSetupEvent (RunEvent.scoreScan 0) = false :=
  run_setup_before_scoring [sampleScan] (RunEvent.scoreScan 0) (by decide)

end SweepLine

namespace IDMerger

/-- C8: calling `insertRun` with an empty protein-identification list, or
with a non-empty protein list but an empty peptide-identification list,
returns without error and leaves the merger's accumulated state
(`protResult`, `pepResult`, `fileOriginToIdx`, `proteinsCollected`,
`filled`) completely unchanged. -/
theorem insertRun_empty_noop (a : Bool) (s : MergerState)
    (prots : List ProteinIdentification) (peps : List PeptideIdentification)
    (h : prots = [] ∨ peps = []) :
    insertRun a s prots peps = Except.ok s := by
  rcases h with rfl | rfl
  · simp [insertRun]
  · cases prots <;> simp [insertRun]

/-- C8 witness: a non-empty protein list with an empty peptide list leaves
the fresh state untouched. -/
theorem insertRun_empty_noop_witness :
    insertRun true (initialMergerState "merged") [sampleProt] []
      = Except.ok (initialMergerState "merged") :=
  insertRun_empty_noop true (initialMergerState "merged") [sampleProt] []
    (Or.inr rfl)

theorem collectFromAccs_inv (run : ProteinIdentification) :
    ∀ (accs collected : List String) (hits : List ProteinHit)
      (out : List String × List ProteinHit),
    collectFromAccs run accs collected hits = Except.ok out →
    HitsInv collected hits →
    HitsInv out.1 out.2 ∧ ∀ x ∈ collected, x ∈ out.1 := by
  intro accs
  induction accs with
  | nil =>
    intro collected hits out hok hinv
    cases hok
    exact ⟨hinv, fun x hx => hx⟩
  | cons acc rest ih =>
    intro collected hits out hok hinv
    simp only [collectFromAccs] at hok
    by_cases hc : acc ∈ collected
    · rw [if_pos hc] at hok
      exact ih collected hits out hok hinv
    · rw [if_neg hc] at hok
      rcases hfind : findHit run acc with _ | h
      · rw [hfind] at hok
        cases hok
      · rw [hfind] at hok
        have hacc : h.accession = acc := by
          have hp := List.find?_some
            (show List.find? (fun h' => h'.accession == acc) run.hits = some h
              by simpa [findHit] using hfind)
          exact eq_of_beq hp
        have hinv' : HitsInv (collected ++ [acc]) (hits ++ [h]) := by
          constructor
          · intro h' hh'
            rcases List.mem_append.mp hh' with hl | hr
            · exact List.mem_append_left _ (hinv.1 h' hl)
            · rcases List.mem_singleton.mp hr with rfl
              rw [hacc]
              exact List.mem_append_right _ (List.mem_singleton_self acc)
          · rw [List.map_append, List.map_singleton, hacc]
            rw [List.nodup_append]
            refine ⟨hinv.2, List.nodup_singleton acc, ?_⟩
            intro x hx hx'
            rcases List.mem_singleton.mp hx' with rfl
            rcases List.mem_map.mp hx with ⟨h'', hh'', hacc''⟩
            exact hc (hacc'' ▸ hinv.1 h'' hh'')
        rcases ih (collected ++ [acc]) (hits ++ [h]) out hok hinv' with ⟨hiv, hsub⟩
        exact ⟨hiv, fun x hx => hsub x (List.mem_append_left _ hx)⟩

theorem collectFromHits_inv (run : ProteinIdentification) :
    ∀ (phits : List PeptideHit) (collected : List String)
      (hits : List ProteinHit) (out : List String × List ProteinHit),
    collectFromHits run phits collected hits = Except.ok out →
    HitsInv collected hits → HitsInv out.1 out.2 := by
  intro phits
  induction phits with
  | nil =>
    intro collected hits out hok hinv
    cases hok
    exact hinv
  | cons ph rest ih =>
    intro collected hits out hok hinv
    simp only [collectFromHits] at hok
    rcases hacc : collectFromAccs run (extractProteinAccessionsSet ph)
        collected hits with e | p
    · rw [hacc] at hok
      cases hok
    · rw [hacc] at hok
      exact ih p.1 p.2 out hok
        (collectFromAccs_inv run _ collected hits p hacc hinv).1

theorem movePepIDsCore_inv (a : Bool) (of : List (List String))
    (runs : List ProteinIdentification) (ident : String)
    (m : List (String × ℕ)) :
    ∀ (pids : List PeptideIdentification) (collected : List String)
      (hits : List ProteinHit) (peps : List PeptideIdentification)
      (out : List String × List ProteinHit × List PeptideIdentification),
    movePepIDsCore a of runs ident m pids collected hits peps = Except.ok out →
    HitsInv collected hits → HitsInv out.1 out.2.1 := by
  intro pids
  induction pids with
  | nil =>
    intro collected hits peps out hok hinv
    cases hok
    exact hinv
  | cons pid rest ih =>
    intro collected hits peps out hok hinv
    simp only [movePepIDsCore] at hok
    split at hok
    · cases hok
    · split at hok
      · cases hok
      · split at hok
        · cases hok
        · rename_i p hch
          exact ih p.1 p.2 _ out hok
            (collectFromHits_inv _ pid.hits collected hits p hch hinv)

theorem movePep_inv (a : Bool) (s s' : MergerState)
    (peps : List PeptideIdentification) (prots : List ProteinIdentification)
    (hok : movePepIDsAndRefProteinsToResult a s peps prots = Except.ok s')
    (hinv : HitsInv s.proteinsCollected s.protResult.hits) :
    HitsInv s'.proteinsCollected s'.protResult.hits := by
  unfold movePepIDsAndRefProteinsToResult at hok
  split at hok
  · cases hok
  · rename_i og ho
    split at hok
    · cases hok
    · rename_i r hc
      cases hok
      exact movePepIDsCore_inv a og.1 prots s.protResult.identifier og.2 peps
        s.proteinsCollected s.protResult.hits s.pepResult r hc hinv

theorem insertRun_inv (a : Bool) (s s' : MergerState)
    (prots : List ProteinIdentification) (peps : List PeptideIdentification)
    (hok : insertRun a s prots peps = Except.ok s')
    (hinv : HitsInv s.proteinsCollected s.protResult.hits) :
    HitsInv s'.proteinsCollected s'.protResult.hits := by
  unfold insertRun at hok
  split at hok
  · cases hok
    exact hinv
  · split at hok
    · cases hok
      exact hinv
    · split at hok
      · split at hok
        · cases hok
        · exact movePep_inv a (filledState s prots) s' peps prots hok hinv
      · split at hok
        · cases hok
        · exact movePep_inv a s s' peps prots hok hinv

theorem foldInsert_inv (a : Bool) :
    ∀ (runs : List (List ProteinIdentification × List PeptideIdentification))
      (s s' : MergerState),
    runs.foldlM (fun t r => insertRun a t r.1 r.2) s = Except.ok s' →
    HitsInv s.proteinsCollected s.protResult.hits →
    HitsInv s'.proteinsCollected s'.protResult.hits := by
  intro runs
  induction runs with
  | nil =>
    intro s s' hok hinv
    cases hok
    exact hinv
  | cons r rest ih =>
    intro s s' hok hinv
    rw [List.foldlM_cons] at hok
    rcases h1 : insertRun a s r.1 r.2 with e | s1
    · rw [h1] at hok
      exact Except.noConfusion hok
    · rw [h1] at hok
      exact ih s1 s' hok (insertRun_inv a s s1 r.1 r.2 h1 hinv)

/-- C9: across any sequence of `insertRun` calls on one instance, each
distinct protein accession contributes at most one protein hit to the
merged result — a hit is moved into `protResult` only when its accession is
newly inserted into `proteinsCollected`, so the merged protein-hit list
never contains two hits with the same accession. -/
theorem merged_accessions_nodup (a : Bool) (ident : String)
    (runs : List (List ProteinIdentification × List PeptideIdentification))
    (s' : MergerState)
    (hok : applyRuns a ident runs = Except.ok s') :
    (s'.protResult.hits.map ProteinHit.accession).Nodup := by
  have hinit : HitsInv (initialMergerState ident).proteinsCollected
      (initialMergerState ident).protResult.hits := by
    constructor <;> simp [initialMergerState, emptyProteinIdentification]
  exact (foldInsert_inv a runs (initialMergerState ident) s' hok hinit).2

/-- C9 witness: inserting the same run (protein accession A referenced by a
peptide twice) twice yields a merged result whose single hit list holds A
exactly once. -/
theorem merged_accessions_nodup_witness :
    ((sampleMergedState.protResult.hits.map ProteinHit.accession).Nodup : Prop) :=
  merged_accessions_nodup true "merged"
    [([sampleProt], [samplePep]), ([sampleProt], [samplePep])]
    sampleMergedState (by rfl)

end IDMerger
